import Mathlib

/-!
Verification of `get_subscribers_for_component.py`, a single-file script that
resolves a status-page component name to an id, fetches the subscriber list,
filters it down to the subscribers of one component, and optionally exports
the filtered records to CSV and JSON.

The script is embedded shallowly: each Python function becomes a Lean
definition over explicit inputs.  Network responses are passed in as values
(`ComponentsResponse`, `SubsResponse`); the possibility of a write failure is
passed in as an oracle.  Python dictionaries are embedded as ordered
association lists with `Option String` values (a missing key is simply not in
the list; an explicit `None` value is `none`).
-/

namespace StatuspageSubs

/-! ## Data model -/

/-- A component as returned by the components endpoint.  The source only ever
reads the `"name"` and `"id"` keys, so only those are modelled. -/
structure Component where
  id : String
  name : String
deriving DecidableEq

/-- A subscriber as returned by the subscribers endpoint.  The source reads
the `"components"` key (a list of component ids, when present) and reads
other keys only through `subscriber.get(field)`; those scalar attributes are
modelled as an ordered association list, where a pair `(k, none)` is a key
present with value `None` and an absent key is simply missing. -/
structure Subscriber where
  attrs : List (String × Option String)
  components : Option (List String)
deriving DecidableEq

/-- The projected record kept per matching subscriber: an ordered dictionary
with `Option String` values, as built by the dict comprehension in the
source. -/
abbrev Record := List (String × Option String)

/-- `SUBSCRIBER_FIELDS_TO_PRINT` from the source. -/
def SUBSCRIBER_FIELDS_TO_PRINT : List String :=
  ["id", "email", "created_at", "mode", "phone_number"]

/-- Lookup of a key in an ordered association list: the first binding wins,
as in a Python dict (which cannot hold duplicate keys anyway).  Returns
`none` when the key is absent. -/
def assocLookup (f : String) : List (String × Option String) → Option (Option String)
  | [] => none
  | (k, v) :: rest => if k = f then some v else assocLookup f rest

/-- `subscriber.get(field)`: the value of the key when present (possibly an
explicit `None`), and `None` when the key is absent. -/
def Subscriber.get (s : Subscriber) (f : String) : Option String :=
  match assocLookup f s.attrs with
  | some v => v
  | none => none

/-- The dict comprehension
`{field: subscriber.get(field) for field in SUBSCRIBER_FIELDS_TO_PRINT}`. -/
def projectSubscriber (s : Subscriber) : Record :=
  SUBSCRIBER_FIELDS_TO_PRINT.map (fun f => (f, s.get f))

/-! ## Errors and HTTP responses

The source raises a bare `Exception` for a non-200 response (the spec calls
it `UpstreamRequestError`), a `ValueError` for a missing component (the
spec calls it `ComponentNotFoundError`), and lets the file writers raise
`IOError`.  The upstream constructor records the message context together
with the response status code and body text interpolated into the message
by the source. -/

inductive PyError where
  | upstream (context : String) (status : Nat) (body : String)
  | notFound (message : String)
  | ioError (message : String)
deriving DecidableEq

deriving instance DecidableEq for Except

/-- The response to the single GET of `{base_uri}/components`: the HTTP
status code, the raw body text (used in error messages), and the parsed JSON
body (used on success). -/
structure ComponentsResponse where
  status : Nat
  text : String
  body : List Component
deriving DecidableEq

/-- The response to the single GET of `{base_uri}/subscribers`. -/
structure SubsResponse where
  status : Nat
  text : String
  body : List Subscriber
deriving DecidableEq

/-! ## `get_component_id_from_name` -/

/-- Python's `str.lower`, embedded character-wise.  (Python lowercases the
full Unicode range; `Char.toLower` covers ASCII, which is the scope modelled
here.) -/
def pyLower (s : String) : String := String.mk (s.data.map Char.toLower)

/-- The `for component in components` scan: return the id of the first
component whose lowercased name equals the lowercased query, and raise
`ValueError` after scanning the whole list without a match. -/
def findComponentLoop (component_name : String) : List Component → Except PyError String
  | [] => .error (.notFound ("Component " ++ component_name ++ " not found."))
  | c :: rest =>
      if pyLower c.name = pyLower component_name then .ok c.id
      else findComponentLoop component_name rest

/-- Embedding of `get_component_id_from_name`: one GET of the components
endpoint; any status other than 200 raises; otherwise linearly scan the
parsed component list. -/
def get_component_id_from_name (resp : ComponentsResponse) (component_name : String) :
    Except PyError String :=
  if resp.status ≠ 200 then
    .error (.upstream "Failed to retrieve components" resp.status resp.text)
  else
    findComponentLoop component_name resp.body

/-! ## `get_subscribers_for_component` -/

/-- The inner `for cid in subscriber["components"]` loop: on the first
element equal to the target the projected record is appended and the loop
`break`s; otherwise nothing is appended.  The target is an `Option String`
because `main` may pass `component_id=None`, and `cid == None` is false for
every string `cid`. -/
def filterLoopInner (component_id : Option String) (s : Subscriber) :
    List String → List Record
  | [] => []
  | cid :: rest =>
      if (some cid : Option String) = component_id then [projectSubscriber s]
      else filterLoopInner component_id s rest

/-- The outer `for subscriber in subscribers` loop: a subscriber without a
`"components"` key contributes nothing. -/
def filterLoop (component_id : Option String) : List Subscriber → List Record
  | [] => []
  | s :: rest =>
      (match s.components with
       | some cids => filterLoopInner component_id s cids
       | none => []) ++ filterLoop component_id rest

/-- Embedding of `get_subscribers_for_component`: one GET of the subscribers
endpoint; any status other than 200 raises; otherwise filter the parsed
subscriber list client-side. -/
def get_subscribers_for_component (resp : SubsResponse) (component_id : Option String) :
    Except PyError (List Record) :=
  if resp.status ≠ 200 then
    .error (.upstream "Failed to retrieve subscribers" resp.status resp.text)
  else
    .ok (filterLoop component_id resp.body)

/-! ## Call traces against a paginated upstream

The spec describes the subscriber endpoint as paginated
(`GET {base}/subscribers?page=N`, empty page ends iteration).  To settle the
pagination claims the upstream is modelled as the list of its pages; a GET
with no `page` query parameter is served page `0`.  The source builds the
URL `f"{base_uri}/subscribers"` with no `page` parameter and calls
`requests.get` exactly once, with no loop and no retry, so its call trace is
the one-element list `[none]`. -/

structure PagedUpstream where
  pages : List (List Subscriber)
deriving DecidableEq

/-- The upstream serves page `p.getD 0` (a request with no `page` query
parameter is page 0) with status 200. -/
def PagedUpstream.respond (u : PagedUpstream) (p : Option Nat) : SubsResponse :=
  { status := 200, text := "", body := (u.pages.getD (p.getD 0) []) }

/-- Running `get_subscribers_for_component` against a paginated upstream:
the source issues a single `requests.get` whose URL carries no `page`
parameter, so the trace of fetches made is `[none]`; the result is computed
from that single response. -/
def collectAgainst (u : PagedUpstream) (component_id : Option String) :
    Except PyError (List Record) × List (Option Nat) :=
  (get_subscribers_for_component (u.respond none) component_id, [none])

/-- Running `get_component_id_from_name` against its upstream: the source
issues a single `requests.get` with no loop and no retry, so exactly one
call is made. -/
def resolveAgainst (resp : ComponentsResponse) (component_name : String) :
    Except PyError String × Nat :=
  (get_component_id_from_name resp component_name, 1)

/-! ## The CSV exporter

`main` writes with `csv.DictWriter(csvfile, fieldnames=SUBSCRIBER_FIELDS_TO_PRINT)`
on a file opened with `newline=""`: a header row, then one row per record,
values looked up by field name with `restval=""` for a missing key and `None`
rendered as the empty field.  The writer uses the default dialect: delimiter
`,`, quote character `"`, `QUOTE_MINIMAL` (a field is quoted exactly when it
contains a delimiter, a quote or a line-terminator character, internal quotes
being doubled) and line terminator `\r\n`. -/

/-- Join a list of chunks with a separator between consecutive chunks. -/
def sepJoin {α : Type} (sep : List α) : List (List α) → List α
  | [] => []
  | [x] => x
  | x :: y :: xs => x ++ sep ++ sepJoin sep (y :: xs)

/-- `QUOTE_MINIMAL`: quote exactly the fields containing a special
character. -/
def csvNeedsQuote (s : String) : Bool :=
  s.data.any (fun c => c = ',' || c = '"' || c = '\r' || c = '\n')

/-- Double every quote character (dialect default `doublequote=True`). -/
def csvEscape : List Char → List Char
  | [] => []
  | c :: cs => if c = '"' then '"' :: '"' :: csvEscape cs else c :: csvEscape cs

/-- One CSV cell as written by the writer. -/
def csvRenderField (s : String) : List Char :=
  if csvNeedsQuote s then '"' :: (csvEscape s.data ++ ['"']) else s.data

/-- One CSV row: comma-joined cells then `\r\n` (the file is opened with
`newline=""`, so the dialect terminator reaches the file untranslated and no
blank interstitial lines appear). -/
def csvRenderRow (fs : List String) : List Char :=
  sepJoin [','] (fs.map csvRenderField) ++ ['\r', '\n']

/-- A whole CSV document. -/
def csvRender (rows : List (List String)) : List Char :=
  (rows.map csvRenderRow).flatten

/-- The string `DictWriter` writes for a record at a field name:
`rowdict.get(key, restval)` with `restval=""`, and a present `None` value
written as the empty field. -/
def cellOf (r : Record) (f : String) : String :=
  match assocLookup f r with
  | some (some s) => s
  | some none => ""
  | none => ""

/-- The full CSV file contents produced by `main` for the filtered records:
`writer.writeheader()` then `writer.writerows(subscribers)`. -/
def csvWriteContent (records : List Record) : String :=
  String.mk (csvRender (SUBSCRIBER_FIELDS_TO_PRINT ::
    records.map (fun r => SUBSCRIBER_FIELDS_TO_PRINT.map (cellOf r))))

/-! ### A CSV reader

Reading the file back (for the round-trip property) is modelled by a
character-level machine implementing the same dialect: comma delimiter,
`\r\n` row terminator, minimally quoted fields with doubled internal
quotes. -/

/-- Reader mode: inside an unquoted field (possibly still empty), inside a
quoted field, just after a quote inside a quoted field, or just after a
carriage return outside quotes. -/
inductive CMode where
  | unq | quoted | quoteEnd | afterCR
deriving DecidableEq

structure CsvState where
  rows : List (List String)
  row : List String
  field : List Char
  mode : CMode
deriving DecidableEq

/-- Finish the current field. -/
def csvPushField (st : CsvState) : CsvState :=
  { st with row := st.row ++ [String.mk st.field], field := [], mode := .unq }

/-- Finish the current field and row. -/
def csvEndRow (st : CsvState) : CsvState :=
  { rows := st.rows ++ [st.row ++ [String.mk st.field]],
    row := [], field := [], mode := .unq }

/-- One character of CSV input. -/
def csvStep (st : CsvState) (c : Char) : CsvState :=
  match st.mode with
  | .unq =>
      if c = ',' then csvPushField st
      else if c = '"' then
        (if st.field.isEmpty then { st with mode := .quoted }
         else { st with field := st.field ++ [c] })
      else if c = '\r' then { st with mode := .afterCR }
      else if c = '\n' then csvEndRow st
      else { st with field := st.field ++ [c] }
  | .quoted =>
      if c = '"' then { st with mode := .quoteEnd }
      else { st with field := st.field ++ [c] }
  | .quoteEnd =>
      if c = '"' then { st with field := st.field ++ [c], mode := .quoted }
      else if c = ',' then csvPushField st
      else if c = '\r' then { st with mode := .afterCR }
      else if c = '\n' then csvEndRow st
      else { st with field := st.field ++ [c], mode := .unq }
  | .afterCR =>
      if c = '\n' then csvEndRow st else st

def csvInit : CsvState := ⟨[], [], [], .unq⟩

/-- Flush a final unterminated row, if any. -/
def csvFinishState (st : CsvState) : List (List String) :=
  if st.mode = .unq && st.row.isEmpty && st.field.isEmpty then st.rows
  else st.rows ++ [st.row ++ [String.mk st.field]]

/-- Parse a CSV document into its rows of cells. -/
def csvParse (cs : List Char) : List (List String) :=
  csvFinishState (cs.foldl csvStep csvInit)

/-- Read a CSV file back as records, `DictReader`-style: the first row is the
header, and each later row is zipped with it (every parsed cell is a string,
so every value comes back as `some _`). -/
def csvRead (content : String) : Option (List Record) :=
  match csvParse content.data with
  | [] => none
  | header :: rows =>
      some (rows.map (fun row => List.zipWith (fun f v => (f, some v)) header row))

/-! ## The JSON exporter

`main` writes with `json.dump(subscribers, jsonfile, indent=4)`: a single
JSON array, elements and object members one per line, nesting indented by 4
spaces, item separator `,` and key separator `: `.  String escaping covers
the quote, the backslash, the short escapes `\n`, `\r`, `\t`, `\b`, `\f`,
and `\u00XX` for the remaining control characters.  (Python additionally
escapes non-ASCII characters as `\uXXXX` by default; the escaped and the
literal spellings parse back to the same string, so the embedding writes
non-ASCII characters literally.) -/

/-- Lowercase hex digit for a value below 16. -/
def hexDigitChar (n : Nat) : Char :=
  if n < 10 then Char.ofNat (48 + n) else Char.ofNat (87 + n)

/-- JSON escape of one character. -/
def jsonEscapeChar (c : Char) : List Char :=
  if c = '"' then ['\\', '"']
  else if c = '\\' then ['\\', '\\']
  else if c = '\n' then ['\\', 'n']
  else if c = '\r' then ['\\', 'r']
  else if c = '\t' then ['\\', 't']
  else if c = Char.ofNat 8 then ['\\', 'b']
  else if c = Char.ofNat 12 then ['\\', 'f']
  else if c.toNat < 32 then
    ['\\', 'u', '0', '0', hexDigitChar (c.toNat / 16), hexDigitChar (c.toNat % 16)]
  else [c]

def jsonEscape (cs : List Char) : List Char := (cs.map jsonEscapeChar).flatten

/-- A JSON string literal. -/
def jsonStringLit (s : String) : List Char := '"' :: (jsonEscape s.data ++ ['"'])

/-- A JSON value: a Python string or `None`. -/
def jsonValueChars : Option String → List Char
  | some s => jsonStringLit s
  | none => ['n', 'u', 'l', 'l']

/-- `n` spaces of indentation. -/
def indentChars (n : Nat) : List Char := List.replicate n ' '

/-- One `"key": value` member. -/
def jsonPairChars (kv : String × Option String) : List Char :=
  jsonStringLit kv.1 ++ [':', ' '] ++ jsonValueChars kv.2

/-- One record as an object, at element depth (members at 8 spaces, closing
brace at 4). -/
def jsonObjChars (r : Record) : List Char :=
  match r with
  | [] => ['{', '}']
  | _ =>
      '{' :: '\n' ::
        (sepJoin [',', '\n'] (r.map (fun kv => indentChars 8 ++ jsonPairChars kv)) ++
         ('\n' :: (indentChars 4 ++ ['}'])))

/-- The full JSON file contents produced by `json.dump(records, f, indent=4)`. -/
def jsonDump (records : List Record) : String :=
  match records with
  | [] => "[]"
  | _ =>
      String.mk ('[' :: '\n' ::
        (sepJoin [',', '\n'] (records.map (fun r => indentChars 4 ++ jsonObjChars r)) ++
         ['\n', ']']))

/-! ### A JSON reader

Reading the file back is modelled as tokenisation (a character-level machine
that drops whitespace and decodes string escapes) followed by a recursive
descent over the token list for the shape actually written: an array of flat
objects whose values are strings or `null`. -/

inductive JTok where
  | lbrack | rbrack | lbrace | rbrace | comma | colon
  | str (s : String) | nullTok
deriving DecidableEq

def isHexDigitChar (c : Char) : Bool :=
  ('0' ≤ c && c ≤ '9') || ('a' ≤ c && c ≤ 'f') || ('A' ≤ c && c ≤ 'F')

def hexCharVal (c : Char) : Nat :=
  if c ≤ '9' then c.toNat - 48
  else if c ≤ 'F' then c.toNat - 55
  else c.toNat - 87

def hexListVal (hs : List Char) : Nat := hs.foldl (fun n c => n * 16 + hexCharVal c) 0

/-- Tokeniser mode: between tokens, inside a string (with the characters read
so far), after a backslash, inside a `\uXXXX` escape (with the hex digits
read so far), inside a keyword literal (with the characters still expected),
or failed. -/
inductive TMode where
  | neutral
  | inStr (acc : List Char)
  | esc (acc : List Char)
  | uni (acc : List Char) (hex : List Char)
  | lit (rest : List Char)
  | bad
deriving DecidableEq

structure TokSt where
  toks : List JTok
  mode : TMode
deriving DecidableEq

/-- One character of JSON input. -/
def tokStep (st : TokSt) (c : Char) : TokSt :=
  match st.mode with
  | .neutral =>
      if c = ' ' || c = '\n' || c = '\r' || c = '\t' then st
      else if c = '[' then { st with toks := st.toks ++ [.lbrack] }
      else if c = ']' then { st with toks := st.toks ++ [.rbrack] }
      else if c = '{' then { st with toks := st.toks ++ [.lbrace] }
      else if c = '}' then { st with toks := st.toks ++ [.rbrace] }
      else if c = ',' then { st with toks := st.toks ++ [.comma] }
      else if c = ':' then { st with toks := st.toks ++ [.colon] }
      else if c = '"' then { st with mode := .inStr [] }
      else if c = 'n' then { st with mode := .lit ['u', 'l', 'l'] }
      else { st with mode := .bad }
  | .inStr acc =>
      if c = '"' then { toks := st.toks ++ [.str (String.mk acc)], mode := .neutral }
      else if c = '\\' then { st with mode := .esc acc }
      else { st with mode := .inStr (acc ++ [c]) }
  | .esc acc =>
      if c = '"' then { st with mode := .inStr (acc ++ ['"']) }
      else if c = '\\' then { st with mode := .inStr (acc ++ ['\\']) }
      else if c = '/' then { st with mode := .inStr (acc ++ ['/']) }
      else if c = 'n' then { st with mode := .inStr (acc ++ ['\n']) }
      else if c = 'r' then { st with mode := .inStr (acc ++ ['\r']) }
      else if c = 't' then { st with mode := .inStr (acc ++ ['\t']) }
      else if c = 'b' then { st with mode := .inStr (acc ++ [Char.ofNat 8]) }
      else if c = 'f' then { st with mode := .inStr (acc ++ [Char.ofNat 12]) }
      else if c = 'u' then { st with mode := .uni acc [] }
      else { st with mode := .bad }
  | .uni acc hex =>
      if isHexDigitChar c then
        if hex.length = 3 then
          { st with mode := .inStr (acc ++ [Char.ofNat (hexListVal (hex ++ [c]))]) }
        else { st with mode := .uni acc (hex ++ [c]) }
      else { st with mode := .bad }
  | .lit rest =>
      match rest with
      | [] => { st with mode := .bad }
      | r :: rs =>
          if c = r then
            (if rs.isEmpty then { toks := st.toks ++ [.nullTok], mode := .neutral }
             else { st with mode := .lit rs })
          else { st with mode := .bad }
  | .bad => st

/-- Tokenise a JSON document; fails unless the input ends between tokens. -/
def tokenize (cs : List Char) : Option (List JTok) :=
  let st := cs.foldl tokStep ⟨[], .neutral⟩
  if st.mode = .neutral then some st.toks else none

/-- Parser mode: just after `[`, just after `{`, after a member value, or
after a closed object. -/
inductive PMode where
  | arrStart | objStart | afterPair | afterObj
deriving DecidableEq

/-- Recursive descent over the token list for an array of flat objects with
string-or-null values; `pairs` accumulates the current object, `objs` the
finished objects. -/
def parseToks : List JTok → PMode → Record → List Record → Option (List Record)
  | .lbrace :: rest, .arrStart, _, objs => parseToks rest .objStart [] objs
  | .rbrack :: rest, .arrStart, _, objs => if rest.isEmpty then some objs else none
  | .str k :: .colon :: .str v :: rest, .objStart, pairs, objs =>
      parseToks rest .afterPair (pairs ++ [(k, some v)]) objs
  | .str k :: .colon :: .nullTok :: rest, .objStart, pairs, objs =>
      parseToks rest .afterPair (pairs ++ [(k, none)]) objs
  | .rbrace :: rest, .objStart, pairs, objs =>
      parseToks rest .afterObj [] (objs ++ [pairs])
  | .comma :: .str k :: .colon :: .str v :: rest, .afterPair, pairs, objs =>
      parseToks rest .afterPair (pairs ++ [(k, some v)]) objs
  | .comma :: .str k :: .colon :: .nullTok :: rest, .afterPair, pairs, objs =>
      parseToks rest .afterPair (pairs ++ [(k, none)]) objs
  | .rbrace :: rest, .afterPair, pairs, objs =>
      parseToks rest .afterObj [] (objs ++ [pairs])
  | .comma :: .lbrace :: rest, .afterObj, _, objs => parseToks rest .objStart [] objs
  | .rbrack :: rest, .afterObj, _, objs => if rest.isEmpty then some objs else none
  | _, _, _, _ => none

/-- Parse a whole token list as an array of records. -/
def jsonParseTokens : List JTok → Option (List Record)
  | .lbrack :: rest => parseToks rest .arrStart [] []
  | _ => none

/-- Read a JSON file back as records. -/
def jsonLoad (s : String) : Option (List Record) :=
  (tokenize s.data).bind jsonParseTokens

/-- The token of one member value. -/
def valTok : Option String → JTok
  | some s => .str s
  | none => .nullTok

/-- The tokens of one `"key": value` member. -/
def pairToks (kv : String × Option String) : List JTok :=
  [.str kv.1, .colon, valTok kv.2]

/-- The tokens of one object. -/
def objToks (r : Record) : List JTok :=
  .lbrace :: (sepJoin [JTok.comma] (r.map pairToks) ++ [.rbrace])

/-- The tokens of the whole document. -/
def docToks (records : List Record) : List JTok :=
  .lbrack :: (sepJoin [JTok.comma] (records.map objToks) ++ [.rbrack])

/-! ## `main` (the orchestrator)

`main` wraps its whole body in `try ... except Exception`, so every error
raised by resolution, by the subscriber fetch or by a file writer lands in
the handler, which only emits an error log entry.  All the inputs a run
depends on are gathered in `RunEnv`; the possibility of an `IOError` from
`open`/write is an oracle per output file. -/

structure RunEnv where
  componentName : Option String
  componentId : Option String
  outCsv : Option String
  outJson : Option String
  componentsResp : ComponentsResponse
  subsResp : SubsResponse
  csvWriteErr : Option String
  jsonWriteErr : Option String
deriving DecidableEq

/-- Python truthiness of an optional string argument: `None` and `""` are
falsy. -/
def truthy : Option String → Bool
  | some s => s ≠ ""
  | none => false

/-- The observable outcome of one `main` run: the files written (path and
contents, in write order), the error logged by the `except` handler if any,
whether the "No subscribers found" entry was logged, and the records logged
one per line otherwise. -/
structure MainResult where
  filesWritten : List (String × String)
  errorLog : Option PyError
  noSubsLogged : Bool
  subscribersLogged : List Record
deriving DecidableEq

/-- `if component_name and not component_id: component_id =
get_component_id_from_name(component_name)` — the id actually used for the
fetch, or the resolution error. -/
def resolvedId (env : RunEnv) : Except PyError (Option String) :=
  if truthy env.componentName && !truthy env.componentId then
    match get_component_id_from_name env.componentsResp (env.componentName.getD "") with
    | .ok cid => .ok (some cid)
    | .error e => .error e
  else .ok env.componentId

/-- Embedding of `main`: resolve if needed, fetch-and-filter, write the CSV
then the JSON file when paths were supplied, then log either the
no-subscribers message or the count and every record; any raised error is
caught and becomes the error log entry of an otherwise empty result (except
that a CSV file already written stays written when the JSON write fails
afterwards). -/
def main (env : RunEnv) : MainResult :=
  match resolvedId env with
  | .error e => { filesWritten := [], errorLog := some e,
                  noSubsLogged := false, subscribersLogged := [] }
  | .ok cid =>
    match get_subscribers_for_component env.subsResp cid with
    | .error e => { filesWritten := [], errorLog := some e,
                    noSubsLogged := false, subscribersLogged := [] }
    | .ok subscribers =>
      let csvStepRes : Except PyError (List (String × String)) :=
        if truthy env.outCsv then
          match env.csvWriteErr with
          | some m => .error (.ioError m)
          | none => .ok [(env.outCsv.getD "", csvWriteContent subscribers)]
        else .ok []
      match csvStepRes with
      | .error e => { filesWritten := [], errorLog := some e,
                      noSubsLogged := false, subscribersLogged := [] }
      | .ok csvFiles =>
        let jsonStepRes : Except PyError (List (String × String)) :=
          if truthy env.outJson then
            match env.jsonWriteErr with
            | some m => .error (.ioError m)
            | none => .ok [(env.outJson.getD "", jsonDump subscribers)]
          else .ok []
        match jsonStepRes with
        | .error e => { filesWritten := csvFiles, errorLog := some e,
                        noSubsLogged := false, subscribersLogged := [] }
        | .ok jsonFiles =>
            { filesWritten := csvFiles ++ jsonFiles,
              errorLog := none,
              noSubsLogged := subscribers.isEmpty,
              subscribersLogged := if subscribers.isEmpty then [] else subscribers }

/-- The spec's membership test, stated declaratively: the subscriber's
`components` set contains the target id, a missing `components` attribute
meaning the empty set.  Compared below against the source's nested loop. -/
def subscriberMatches (component_id : Option String) (s : Subscriber) : Bool :=
  match s.components with
  | some cids => cids.any (fun c => some c == component_id)
  | none => false

/-! ## Sample data used by witnesses and counterexamples -/

/-- A subscriber of component `c1` with only an id and an email, as in the
spec's end-to-end scenario. -/
def sampleSub1 : Subscriber :=
  { attrs := [("id", some "s1"), ("email", some "a@x.com")], components := some ["c1"] }

/-- A second subscriber of component `c1`. -/
def sampleSub2 : Subscriber :=
  { attrs := [("id", some "s2"), ("email", some "b@x.com")], components := some ["c1"] }

/-- A subscriber of a different component only. -/
def sampleSubOther : Subscriber :=
  { attrs := [("id", some "s3")], components := some ["c9"] }

/-- The spec's pagination scenario `[pageA, pageB, []]`. -/
def samplePages : PagedUpstream := ⟨[[sampleSub1], [sampleSub2], []]⟩

/-- A run whose filter result is empty while both output paths are
supplied. -/
def envEmptyResult : RunEnv :=
  { componentName := none, componentId := some "c1",
    outCsv := some "subs.csv", outJson := some "subs.json",
    componentsResp := ⟨200, "", []⟩,
    subsResp := ⟨200, "", [sampleSubOther]⟩,
    csvWriteErr := none, jsonWriteErr := none }

/-- A run whose name resolution fails (no matching component). -/
def envResolutionFail : RunEnv :=
  { componentName := some "api", componentId := none,
    outCsv := some "subs.csv", outJson := some "subs.json",
    componentsResp := ⟨200, "", [⟨"c9", "Database"⟩]⟩,
    subsResp := ⟨200, "", [sampleSub1]⟩,
    csvWriteErr := none, jsonWriteErr := none }

/-! ## Basic lemmas about the filter -/

lemma filterLoopInner_eq (cid : Option String) (s : Subscriber) (l : List String) :
    filterLoopInner cid s l =
      if l.any (fun c => some c == cid) then [projectSubscriber s] else [] := by
  induction l with
  | nil => rfl
  | cons c rest ih =>
      simp only [filterLoopInner, List.any_cons]
      by_cases h : (some c : Option String) = cid
      · simp [h]
      · simp [h, ih]

lemma filterLoop_cons (cid : Option String) (s : Subscriber) (subs : List Subscriber) :
    filterLoop cid (s :: subs) =
      (if subscriberMatches cid s then [projectSubscriber s] else []) ++ filterLoop cid subs := by
  obtain ⟨attrs, comps⟩ := s
  cases comps with
  | none => simp [filterLoop, subscriberMatches]
  | some cids => simp [filterLoop, subscriberMatches, filterLoopInner_eq]

lemma filterLoop_eq_filter_map (cid : Option String) (subs : List Subscriber) :
    filterLoop cid subs = (subs.filter (subscriberMatches cid)).map projectSubscriber := by
  induction subs with
  | nil => rfl
  | cons s rest ih =>
      rw [filterLoop_cons, ih]
      by_cases h : subscriberMatches cid s
      · simp [h, List.filter_cons]
      · simp [h, List.filter_cons]

lemma projectSubscriber_keys (s : Subscriber) :
    (projectSubscriber s).map Prod.fst = SUBSCRIBER_FIELDS_TO_PRINT := by
  simp [projectSubscriber, List.map_map, Function.comp_def]

lemma filterLoop_sublist (cid : Option String) (subs : List Subscriber) :
    List.Sublist (filterLoop cid subs) (subs.map projectSubscriber) := by
  induction subs with
  | nil => simp [filterLoop]
  | cons s rest ih =>
      rw [filterLoop_cons]
      by_cases h : subscriberMatches cid s
      · simpa [h] using List.Sublist.cons₂ (projectSubscriber s) ih
      · simpa [h] using List.Sublist.cons (projectSubscriber s) ih

lemma filterLoop_append (cid : Option String) (xs ys : List Subscriber) :
    filterLoop cid (xs ++ ys) = filterLoop cid xs ++ filterLoop cid ys := by
  induction xs with
  | nil => simp [filterLoop]
  | cons s rest ih => simp [filterLoop_cons, ih, List.append_assoc]

lemma filterLoopInner_length_le (cid : Option String) (s : Subscriber) (l : List String) :
    (filterLoopInner cid s l).length ≤ 1 := by
  rw [filterLoopInner_eq]
  split <;> simp

/-! ## Basic lemmas about the resolver -/

lemma findComponentLoop_eq_find (n : String) (l : List Component) :
    findComponentLoop n l =
      match l.find? (fun c => pyLower c.name == pyLower n) with
      | some c => .ok c.id
      | none => .error (.notFound ("Component " ++ n ++ " not found.")) := by
  induction l with
  | nil => rfl
  | cons c rest ih =>
      simp only [findComponentLoop]
      by_cases h : pyLower c.name = pyLower n
      · simp [List.find?_cons, h]
      · rw [if_neg h, ih]
        have hb : (pyLower c.name == pyLower n) = false := by
          simpa using h
        simp [List.find?_cons, hb]

lemma findComponentLoop_error_iff (n : String) (l : List Component) :
    findComponentLoop n l = .error (.notFound ("Component " ++ n ++ " not found.")) ↔
      ∀ c ∈ l, pyLower c.name ≠ pyLower n := by
  induction l with
  | nil => simp [findComponentLoop]
  | cons c rest ih =>
      simp only [findComponentLoop]
      by_cases h : pyLower c.name = pyLower n
      · simp [h]
      · simp [h, ih]

/-! ## Claim theorems -/

/-- C1 (counterexample): against an upstream returning `[pageA, pageB, []]`
the source does not make 3 fetch calls and does not return the records of
`pageA ++ pageB`: it makes exactly one call (with no page cursor) and
returns only the records of the first page. -/
theorem C1_pagination_counterexample :
    (collectAgainst samplePages (some "c1")).2.length ≠ 3 ∧
    (collectAgainst samplePages (some "c1")).1 ≠
      .ok (filterLoop (some "c1") ([sampleSub1] ++ [sampleSub2])) := by
  constructor
  · decide
  · decide

/-- C1 (amended): the subscriber fetch performs exactly one GET, whose URL
carries no `page` query parameter, and computes its result from that single
response (the page the service serves for a cursor-less request); in
particular the result only depends on page 0 and later pages are never
observed. -/
theorem C1_single_fetch_no_pagination (u : PagedUpstream) (cid : Option String) :
    (collectAgainst u cid).2 = [none] ∧
    (collectAgainst u cid).1 = .ok (filterLoop cid (u.pages.getD 0 [])) ∧
    ∀ (p0 : List Subscriber) (rest1 rest2 : List (List Subscriber)),
      collectAgainst ⟨p0 :: rest1⟩ cid = collectAgainst ⟨p0 :: rest2⟩ cid := by
  refine ⟨rfl, ?_, ?_⟩
  · simp [collectAgainst, get_subscribers_for_component, PagedUpstream.respond]
  · intro p0 rest1 rest2
    simp [collectAgainst, get_subscribers_for_component, PagedUpstream.respond]

/-- C3: the filter returns exactly the subscribers whose `components` set
contains the target id (a subscriber lacking the attribute never matches,
as `subscriberMatches` maps a missing attribute to `false`), each record
carries exactly the five whitelisted fields in order, and every record is
the whitelist projection of its subscriber with absent fields mapped to
`null` by `Subscriber.get`. -/
theorem C3_filter_membership_and_projection (subs : List Subscriber) (cid : Option String) :
    filterLoop cid subs = (subs.filter (subscriberMatches cid)).map projectSubscriber ∧
    (∀ r ∈ filterLoop cid subs, r.map Prod.fst = SUBSCRIBER_FIELDS_TO_PRINT) ∧
    (∀ r ∈ filterLoop cid subs, ∃ s ∈ subs, subscriberMatches cid s = true ∧
      r = SUBSCRIBER_FIELDS_TO_PRINT.map (fun f => (f, s.get f))) := by
  refine ⟨filterLoop_eq_filter_map cid subs, ?_, ?_⟩
  · intro r hr
    rw [filterLoop_eq_filter_map] at hr
    obtain ⟨s, _, rfl⟩ := List.mem_map.mp hr
    exact projectSubscriber_keys s
  · intro r hr
    rw [filterLoop_eq_filter_map] at hr
    obtain ⟨s, hs, rfl⟩ := List.mem_map.mp hr
    exact ⟨s, List.mem_of_mem_filter hs, List.of_mem_filter hs, rfl⟩

/-- C3 (witness): instantiation on the spec's end-to-end subscriber. -/
theorem C3_filter_membership_and_projection_witness :
    (projectSubscriber sampleSub1).map Prod.fst = SUBSCRIBER_FIELDS_TO_PRINT :=
  (C3_filter_membership_and_projection [sampleSub1] (some "c1")).2.1
    (projectSubscriber sampleSub1) (by decide)

/-- C6: name resolution on a 200 response returns the id of the first
component in service order whose name matches the query case-insensitively
(an exact match after lowercasing both sides). -/
theorem C6_case_insensitive_first_match (resp : ComponentsResponse) (name : String)
    (h : resp.status = 200) :
    get_component_id_from_name resp name =
      match resp.body.find? (fun c => pyLower c.name == pyLower name) with
      | some c => .ok c.id
      | none => .error (.notFound ("Component " ++ name ++ " not found.")) := by
  rw [get_component_id_from_name, if_neg (by simp [h]), findComponentLoop_eq_find]

/-- C6 (witness): a component named `API` resolves when queried as `api`. -/
theorem C6_case_insensitive_first_match_witness :
    get_component_id_from_name ⟨200, "", [⟨"c1", "API"⟩]⟩ "api" = .ok "c1" :=
  (C6_case_insensitive_first_match ⟨200, "", [⟨"c1", "API"⟩]⟩ "api" rfl).trans (by decide)

/-- C7: on a 200 response, resolution fails with the not-found error exactly
when no component of the list matches the query case-insensitively — in
particular on the empty list. -/
theorem C7_not_found_iff_no_match (resp : ComponentsResponse) (name : String)
    (h : resp.status = 200) :
    (get_component_id_from_name resp name =
        .error (.notFound ("Component " ++ name ++ " not found.")) ↔
      ∀ c ∈ resp.body, pyLower c.name ≠ pyLower name) := by
  rw [get_component_id_from_name, if_neg (by simp [h])]
  exact findComponentLoop_error_iff name resp.body

/-- C7 (witness): the empty component list raises the not-found error. -/
theorem C7_not_found_iff_no_match_witness :
    get_component_id_from_name ⟨200, "", []⟩ "api" =
      .error (.notFound ("Component " ++ "api" ++ " not found.")) :=
  (C7_not_found_iff_no_match ⟨200, "", []⟩ "api" rfl).mpr (by simp)

/-- C9: the filter preserves the relative order of its input — its output is
an order-preserving subsequence of the projected input, and it distributes
over concatenation — and it is deterministic: two runs on the same input
yield the same output. -/
theorem C9_order_preserving_and_deterministic (subs : List Subscriber) (cid : Option String) :
    List.Sublist (filterLoop cid subs) (subs.map projectSubscriber) ∧
    (∀ xs ys : List Subscriber, filterLoop cid (xs ++ ys) =
      filterLoop cid xs ++ filterLoop cid ys) ∧
    filterLoop cid subs = filterLoop cid subs :=
  ⟨filterLoop_sublist cid subs, fun xs ys => filterLoop_append cid xs ys, rfl⟩

/-- C10: each subscriber contributes at most one record — the inner loop
`break`s on the first hit, so even a duplicated target id in `components`
yields one record — and hence the output is never longer than the input. -/
theorem C10_at_most_one_record_per_subscriber (subs : List Subscriber) (cid : Option String) :
    (∀ (s : Subscriber) (l : List String), (filterLoopInner cid s l).length ≤ 1) ∧
    (filterLoop cid subs).length ≤ subs.length := by
  refine ⟨fun s l => filterLoopInner_length_le cid s l, ?_⟩
  have h := (filterLoop_sublist cid subs).length_le
  simpa using h

/-! ## Lemmas about the endpoint error behaviour -/

lemma findComponentLoop_ne_upstream (n : String) (l : List Component)
    (ctx : String) (st : Nat) (b : String) :
    findComponentLoop n l ≠ .error (.upstream ctx st b) := by
  induction l with
  | nil => simp [findComponentLoop]
  | cons c rest ih =>
      simp only [findComponentLoop]
      split
      · simp
      · exact ih

/-! ## Claim theorems: error handling and the orchestrator -/

/-- C4 (counterexample): a `201 Created` response is a success (2xx) status,
yet the source raises on it, because the code tests `status_code != 200`
rather than non-2xx; so "fails if and only if non-2xx" is false. -/
theorem C4_non2xx_counterexample :
    get_component_id_from_name ⟨201, "Created", []⟩ "x" =
      .error (.upstream "Failed to retrieve components" 201 "Created") ∧
    200 ≤ 201 ∧ 201 < 300 := by
  refine ⟨?_, by decide, by decide⟩
  rfl

/-- C4 (amended): each of the two fetches fails with the upstream error
carrying the response status code and body exactly when the status differs
from 200 (so non-200 2xx statuses also fail), and each fetch is issued
exactly once, with no retry. -/
theorem C4_fail_iff_status_ne_200 (cresp : ComponentsResponse) (sresp : SubsResponse)
    (name : String) (cid : Option String) :
    (cresp.status ≠ 200 → get_component_id_from_name cresp name =
      .error (.upstream "Failed to retrieve components" cresp.status cresp.text)) ∧
    (cresp.status = 200 → ∀ ctx st b,
      get_component_id_from_name cresp name ≠ .error (.upstream ctx st b)) ∧
    (sresp.status ≠ 200 → get_subscribers_for_component sresp cid =
      .error (.upstream "Failed to retrieve subscribers" sresp.status sresp.text)) ∧
    (sresp.status = 200 → get_subscribers_for_component sresp cid =
      .ok (filterLoop cid sresp.body)) ∧
    (resolveAgainst cresp name).2 = 1 ∧
    (∀ u : PagedUpstream, (collectAgainst u cid).2.length = 1) := by
  refine ⟨?_, ?_, ?_, ?_, rfl, fun u => rfl⟩
  · intro h
    simp [get_component_id_from_name, h]
  · intro h ctx st b
    simp only [get_component_id_from_name, h]
    simpa using findComponentLoop_ne_upstream name cresp.body ctx st b
  · intro h
    simp [get_subscribers_for_component, h]
  · intro h
    simp [get_subscribers_for_component, h]

/-- C4 (witness): a 404 response to the components fetch raises the upstream
error carrying 404 and the body. -/
theorem C4_fail_iff_status_ne_200_witness :
    get_component_id_from_name ⟨404, "not found", []⟩ "x" =
      .error (.upstream "Failed to retrieve components" 404 "not found") :=
  (C4_fail_iff_status_ne_200 ⟨404, "not found", []⟩ ⟨200, "", []⟩ "x" none).1 (by decide)

/-- C2 (counterexample): a run with an empty filter result and both output
paths supplied still writes both files (the source writes before testing
emptiness), while logging the no-subscribers message. -/
theorem C2_skip_export_counterexample :
    (main envEmptyResult).noSubsLogged = true ∧
    (main envEmptyResult).filesWritten ≠ [] := by
  constructor
  · decide
  · decide

/-- C2 (amended): when the filtered list is empty the orchestrator reports
no subscribers found, but the exporters are not skipped: each supplied path
still receives a file — a header-only CSV and an empty JSON array. -/
theorem C2_empty_result_still_writes (env : RunEnv) (cid : Option String)
    (hres : resolvedId env = .ok cid)
    (hsub : get_subscribers_for_component env.subsResp cid = .ok [])
    (hcsv : env.csvWriteErr = none) (hjson : env.jsonWriteErr = none) :
    main env =
      { filesWritten :=
          (if truthy env.outCsv then [(env.outCsv.getD "", csvWriteContent [])] else []) ++
          (if truthy env.outJson then [(env.outJson.getD "", jsonDump [])] else []),
        errorLog := none, noSubsLogged := true, subscribersLogged := [] } ∧
    csvWriteContent [] = "id,email,created_at,mode,phone_number\r\n" ∧
    jsonDump [] = "[]" := by
  refine ⟨?_, by decide, rfl⟩
  simp only [main, hres, hsub, hcsv, hjson]
  by_cases h1 : truthy env.outCsv <;> by_cases h2 : truthy env.outJson <;>
    simp [h1, h2]

/-- C2 (witness): the empty-result run above writes both files. -/
theorem C2_empty_result_still_writes_witness :
    main envEmptyResult =
      { filesWritten := [("subs.csv", csvWriteContent []), ("subs.json", jsonDump [])],
        errorLog := none, noSubsLogged := true, subscribersLogged := [] } :=
  ((C2_empty_result_still_writes envEmptyResult (some "c1") (by decide) (by decide)
      rfl rfl).1).trans (by decide)

/-- C5: every failure is caught at the orchestrator boundary and becomes the
error log entry of a normally returned result (the embedding of `main` is a
total function into `MainResult`, mirroring the `try`/`except Exception`
wrapper): a resolution failure or a fetch failure yields a result with the
error logged and no file written; a CSV write failure yields the error
logged and no file recorded; a JSON write failure yields the error logged
with only the already-written CSV file kept. -/
theorem C5_all_failures_caught (env : RunEnv) :
    (∀ e, resolvedId env = .error e →
      main env = ⟨[], some e, false, []⟩) ∧
    (∀ cid e, resolvedId env = .ok cid →
      get_subscribers_for_component env.subsResp cid = .error e →
      main env = ⟨[], some e, false, []⟩) ∧
    (∀ cid subs m, resolvedId env = .ok cid →
      get_subscribers_for_component env.subsResp cid = .ok subs →
      truthy env.outCsv = true → env.csvWriteErr = some m →
      main env = ⟨[], some (.ioError m), false, []⟩) ∧
    (∀ cid subs m, resolvedId env = .ok cid →
      get_subscribers_for_component env.subsResp cid = .ok subs →
      env.csvWriteErr = none → truthy env.outJson = true → env.jsonWriteErr = some m →
      main env = ⟨(if truthy env.outCsv then
          [(env.outCsv.getD "", csvWriteContent subs)] else []),
        some (.ioError m), false, []⟩) := by
  refine ⟨?_, ?_, ?_, ?_⟩
  · intro e h
    simp [main, h]
  · intro cid e h1 h2
    simp [main, h1, h2]
  · intro cid subs m h1 h2 h3 h4
    simp [main, h1, h2, h3, h4]
  · intro cid subs m h1 h2 h3 h4 h5
    by_cases hc : truthy env.outCsv <;> simp [main, h1, h2, h3, h4, h5, hc]

/-- C5 (witness): a failing name resolution is caught, logged and produces
no file. -/
theorem C5_all_failures_caught_witness :
    main envResolutionFail =
      ⟨[], some (.notFound ("Component " ++ "api" ++ " not found.")), false, []⟩ :=
  (C5_all_failures_caught envResolutionFail).1
    (.notFound ("Component " ++ "api" ++ " not found.")) (by decide)

/-! ## CSV round trip

The writer's output is recovered by the reader machine: first per field
(quoted or unquoted), then per row, then per document. -/

lemma stringMk_data (s : String) : String.mk s.data = s := rfl

lemma csv_foldl_escape (cs : List Char) :
    ∀ (rows : List (List String)) (row : List String) (f : List Char),
      List.foldl csvStep ⟨rows, row, f, .quoted⟩ (csvEscape cs) =
        ⟨rows, row, f ++ cs, .quoted⟩ := by
  induction cs with
  | nil => intro rows row f; simp [csvEscape]
  | cons c rest ih =>
      intro rows row f
      by_cases h : c = '"'
      · subst h
        have he : csvEscape ('"' :: rest) = '"' :: '"' :: csvEscape rest := by
          simp [csvEscape]
        rw [he, List.foldl_cons, List.foldl_cons]
        rw [show csvStep ⟨rows, row, f, .quoted⟩ '"' = ⟨rows, row, f, .quoteEnd⟩ from
          by simp [csvStep]]
        rw [show csvStep ⟨rows, row, f, .quoteEnd⟩ '"' = ⟨rows, row, f ++ ['"'], .quoted⟩ from
          by simp [csvStep]]
        rw [ih]
        simp
      · have he : csvEscape (c :: rest) = c :: csvEscape rest := by
          simp [csvEscape, h]
        rw [he, List.foldl_cons]
        rw [show csvStep ⟨rows, row, f, .quoted⟩ c = ⟨rows, row, f ++ [c], .quoted⟩ from
          by simp [csvStep, h]]
        rw [ih]
        simp

lemma csv_foldl_unquoted (cs : List Char)
    (hcs : ∀ c ∈ cs, ¬(c = ',' ∨ c = '"' ∨ c = '\r' ∨ c = '\n')) :
    ∀ (rows : List (List String)) (row : List String) (f : List Char),
      List.foldl csvStep ⟨rows, row, f, .unq⟩ cs = ⟨rows, row, f ++ cs, .unq⟩ := by
  induction cs with
  | nil => intro rows row f; simp
  | cons c rest ih =>
      intro rows row f
      have hc := hcs c (List.mem_cons_self c rest)
      push_neg at hc
      obtain ⟨h1, h2, h3, h4⟩ := hc
      rw [List.foldl_cons]
      rw [show csvStep ⟨rows, row, f, .unq⟩ c = ⟨rows, row, f ++ [c], .unq⟩ from
        by simp [csvStep, h1, h2, h3, h4]]
      rw [ih (fun x hx => hcs x (List.mem_cons_of_mem c hx))]
      simp

lemma csvNeedsQuote_false_no_special (s : String) (h : csvNeedsQuote s = false) :
    ∀ c ∈ s.data, ¬(c = ',' ∨ c = '"' ∨ c = '\r' ∨ c = '\n') := by
  intro c hc hor
  have ht : csvNeedsQuote s = true := by
    simp only [csvNeedsQuote, List.any_eq_true]
    refine ⟨c, hc, ?_⟩
    rcases hor with h1 | h1 | h1 | h1 <;> simp [h1]
  rw [ht] at h
  simp at h

lemma csv_foldl_renderField (s : String) (rows : List (List String)) (row : List String) :
    List.foldl csvStep ⟨rows, row, [], .unq⟩ (csvRenderField s) =
      ⟨rows, row, s.data, if csvNeedsQuote s then CMode.quoteEnd else CMode.unq⟩ := by
  by_cases h : csvNeedsQuote s
  · have hr : csvRenderField s = '"' :: (csvEscape s.data ++ ['"']) := by
      simp [csvRenderField, h]
    rw [hr, List.foldl_cons]
    rw [show csvStep ⟨rows, row, [], .unq⟩ '"' = ⟨rows, row, [], .quoted⟩ from
      by simp [csvStep]]
    rw [List.foldl_append, csv_foldl_escape]
    rw [show List.foldl csvStep ⟨rows, row, [] ++ s.data, .quoted⟩ ['"'] =
        ⟨rows, row, [] ++ s.data, .quoteEnd⟩ from by simp [csvStep]]
    simp [h]
  · have hr : csvRenderField s = s.data := by
      simp [csvRenderField, h]
    rw [hr, csv_foldl_unquoted s.data
      (csvNeedsQuote_false_no_special s (by simpa using h))]
    simp [h]

lemma csv_foldl_comma (rows : List (List String)) (row : List String) (f : List Char)
    (m : CMode) (hm : m = CMode.unq ∨ m = CMode.quoteEnd) :
    List.foldl csvStep ⟨rows, row, f, m⟩ [','] = ⟨rows, row ++ [String.mk f], [], .unq⟩ := by
  rcases hm with h | h <;> subst h <;> simp [csvStep, csvPushField]

lemma csv_foldl_crlf (rows : List (List String)) (row : List String) (f : List Char)
    (m : CMode) (hm : m = CMode.unq ∨ m = CMode.quoteEnd) :
    List.foldl csvStep ⟨rows, row, f, m⟩ ['\r', '\n'] =
      ⟨rows ++ [row ++ [String.mk f]], [], [], .unq⟩ := by
  rcases hm with h | h <;> subst h <;> simp [csvStep, csvEndRow]

lemma csv_foldl_row (fs : List String) (hfs : fs ≠ []) :
    ∀ (rows : List (List String)) (row : List String) (rest : List Char),
      List.foldl csvStep ⟨rows, row, [], .unq⟩
          (sepJoin [','] (fs.map csvRenderField) ++ ['\r', '\n'] ++ rest) =
        List.foldl csvStep ⟨rows ++ [row ++ fs], [], [], .unq⟩ rest := by
  induction fs with
  | nil => exact absurd rfl hfs
  | cons f fs ih =>
      intro rows row rest
      cases fs with
      | nil =>
          have hin : sepJoin [','] ([f].map csvRenderField) ++ ['\r', '\n'] ++ rest =
              (csvRenderField f ++ ['\r', '\n']) ++ rest := by
            simp [sepJoin, List.append_assoc]
          rw [hin, List.foldl_append, List.foldl_append, csv_foldl_renderField]
          rw [csv_foldl_crlf _ _ _ _ (by split <;> simp)]
      | cons f2 fs2 =>
          have hin : sepJoin [','] ((f :: f2 :: fs2).map csvRenderField) ++
                ['\r', '\n'] ++ rest =
              csvRenderField f ++
                (',' :: (sepJoin [','] ((f2 :: fs2).map csvRenderField) ++
                  ['\r', '\n'] ++ rest)) := by
            simp [sepJoin, List.append_assoc]
          rw [hin, List.foldl_append, csv_foldl_renderField, List.foldl_cons]
          rw [show csvStep ⟨rows, row, f.data,
                if csvNeedsQuote f then CMode.quoteEnd else CMode.unq⟩ ',' =
              ⟨rows, row ++ [String.mk f.data], [], .unq⟩ from
            by split <;> simp [csvStep, csvPushField]]
          rw [ih (List.cons_ne_nil f2 fs2)]
          rw [stringMk_data]
          simp [List.append_assoc]

lemma csv_foldl_render (rl : List (List String)) (h : ∀ r ∈ rl, r ≠ []) :
    ∀ rows : List (List String),
      List.foldl csvStep ⟨rows, [], [], .unq⟩ (csvRender rl) = ⟨rows ++ rl, [], [], .unq⟩ := by
  induction rl with
  | nil => intro rows; simp [csvRender]
  | cons r rl ih =>
      intro rows
      have hr : csvRender (r :: rl) =
          sepJoin [','] (r.map csvRenderField) ++ ['\r', '\n'] ++ csvRender rl := by
        simp [csvRender, csvRenderRow, List.append_assoc]
      rw [hr, csv_foldl_row r (h r (List.mem_cons_self r rl))]
      rw [ih (fun x hx => h x (List.mem_cons_of_mem r hx))]
      simp

/-- The reader recovers exactly the rows the writer wrote (every written row
has at least one cell). -/
lemma csvParse_csvRender (rl : List (List String)) (h : ∀ r ∈ rl, r ≠ []) :
    csvParse (csvRender rl) = rl := by
  rw [csvParse]
  rw [show csvInit = (⟨[], [], [], .unq⟩ : CsvState) from rfl]
  rw [csv_foldl_render rl h []]
  simp [csvFinishState]

lemma cellOf_head (k : String) (v : Option String) (r : Record) :
    cellOf ((k, v) :: r) k = v.getD "" := by
  cases v <;> simp [cellOf, assocLookup]

lemma cellOf_tail (k f : String) (v : Option String) (r : Record) (h : k ≠ f) :
    cellOf ((k, v) :: r) f = cellOf r f := by
  simp [cellOf, assocLookup, h]

/-- Writing a record's cells in key order and pairing them back with the
keys reproduces the record with `null` values replaced by the empty
string.  Needs the keys to be exactly `ks` in order and without
duplicates. -/
lemma cells_zip_keys (r : Record) (ks : List String) (hk : r.map Prod.fst = ks)
    (hnd : ks.Nodup) :
    ks.map (fun f => (f, some (cellOf r f))) =
      r.map (fun kv => (kv.1, some (kv.2.getD ""))) := by
  induction r generalizing ks with
  | nil => subst hk; rfl
  | cons kv r ih =>
      obtain ⟨k, v⟩ := kv
      subst hk
      simp only [List.map_cons, List.nodup_cons] at hnd ⊢
      obtain ⟨hknot, hnd2⟩ := hnd
      simp only [List.cons.injEq]
      refine ⟨?_, ?_⟩
      · rw [cellOf_head]
      · have hcells : (r.map Prod.fst).map (fun f => (f, some (cellOf ((k, v) :: r) f))) =
            (r.map Prod.fst).map (fun f => (f, some (cellOf r f))) := by
          apply List.map_congr_left
          intro f hf
          rw [cellOf_tail k f v r (fun he => hknot (he ▸ hf))]
        rw [hcells, ih (r.map Prod.fst) rfl hnd2]

/-- The CSV round trip: parsing the written file yields the header and then
the original records with `null` fields replaced by the empty string. -/
lemma csvRead_csvWriteContent (records : List Record)
    (hkeys : ∀ r ∈ records, r.map Prod.fst = SUBSCRIBER_FIELDS_TO_PRINT) :
    csvRead (csvWriteContent records) =
      some (records.map (fun r => r.map (fun kv => (kv.1, some (kv.2.getD ""))))) := by
  have hrows : csvParse (csvWriteContent records).data =
      SUBSCRIBER_FIELDS_TO_PRINT ::
        records.map (fun r => SUBSCRIBER_FIELDS_TO_PRINT.map (cellOf r)) := by
    rw [csvWriteContent]
    rw [show (String.mk (csvRender (SUBSCRIBER_FIELDS_TO_PRINT ::
        records.map (fun r => SUBSCRIBER_FIELDS_TO_PRINT.map (cellOf r))))).data =
        csvRender (SUBSCRIBER_FIELDS_TO_PRINT ::
          records.map (fun r => SUBSCRIBER_FIELDS_TO_PRINT.map (cellOf r))) from rfl]
    apply csvParse_csvRender
    intro r hr
    rcases List.mem_cons.mp hr with h | h
    · subst h; simp [SUBSCRIBER_FIELDS_TO_PRINT]
    · obtain ⟨x, _, rfl⟩ := List.mem_map.mp h
      simp [SUBSCRIBER_FIELDS_TO_PRINT]
  rw [csvRead, hrows]
  simp only [Option.some.injEq]
  rw [List.map_map]
  apply List.map_congr_left
  intro r hr
  simp only [Function.comp_apply]
  have hzip : List.zipWith (fun f v => (f, some v)) SUBSCRIBER_FIELDS_TO_PRINT
      (SUBSCRIBER_FIELDS_TO_PRINT.map (cellOf r)) =
      SUBSCRIBER_FIELDS_TO_PRINT.map (fun f => (f, some (cellOf r f))) := by
    rw [List.zipWith_map_right, List.zipWith_same]
  rw [hzip]
  exact cells_zip_keys r SUBSCRIBER_FIELDS_TO_PRINT (hkeys r hr) (by decide)

/-! ## JSON round trip: the tokeniser recovers the written tokens -/

lemma sepJoin_cons_flatten {α : Type} (sep : α) (x : List α) (xs : List (List α)) :
    sepJoin [sep] (x :: xs) = x ++ (xs.map (fun y => sep :: y)).flatten := by
  induction xs generalizing x with
  | nil => simp [sepJoin]
  | cons y ys ih =>
      rw [show sepJoin [sep] (x :: y :: ys) = x ++ [sep] ++ sepJoin [sep] (y :: ys) from
        by simp [sepJoin]]
      rw [ih y]
      simp [List.append_assoc]

lemma hexCharVal_hexDigitChar (m : Nat) (h : m < 16) :
    hexCharVal (hexDigitChar m) = m := by
  interval_cases m <;> decide

lemma isHexDigitChar_hexDigitChar (m : Nat) (h : m < 16) :
    isHexDigitChar (hexDigitChar m) = true := by
  interval_cases m <;> decide

lemma tok_foldl_escapeChar (c : Char) (toks : List JTok) (acc : List Char) :
    List.foldl tokStep ⟨toks, .inStr acc⟩ (jsonEscapeChar c) = ⟨toks, .inStr (acc ++ [c])⟩ := by
  by_cases h1 : c = '"'
  · subst h1; simp [jsonEscapeChar, tokStep]
  by_cases h2 : c = '\\'
  · subst h2; simp [jsonEscapeChar, tokStep, h1]
  by_cases h3 : c = '\n'
  · subst h3; simp [jsonEscapeChar, tokStep]
  by_cases h4 : c = '\r'
  · subst h4; simp [jsonEscapeChar, tokStep]
  by_cases h5 : c = '\t'
  · subst h5; simp [jsonEscapeChar, tokStep]
  by_cases h6 : c = Char.ofNat 8
  · subst h6; simp [jsonEscapeChar, tokStep]
  by_cases h7 : c = Char.ofNat 12
  · subst h7; simp [jsonEscapeChar, tokStep]
  by_cases h8 : c.toNat < 32
  · have hform : jsonEscapeChar c = ['\\', 'u', '0', '0',
        hexDigitChar (c.toNat / 16), hexDigitChar (c.toNat % 16)] := by
      simp [jsonEscapeChar, h1, h2, h3, h4, h5, h6, h7, h8]
    have hv1 : c.toNat / 16 < 16 := by omega
    have hv2 : c.toNat % 16 < 16 := Nat.mod_lt _ (by omega)
    have e1 : tokStep ⟨toks, .inStr acc⟩ '\\' = ⟨toks, .esc acc⟩ := by
      simp [tokStep]
    have e2 : tokStep ⟨toks, .esc acc⟩ 'u' = ⟨toks, .uni acc []⟩ := by
      simp [tokStep]
    have e3 : tokStep ⟨toks, .uni acc []⟩ '0' = ⟨toks, .uni acc ['0']⟩ := by
      simp [tokStep, isHexDigitChar]
    have e4 : tokStep ⟨toks, .uni acc ['0']⟩ '0' = ⟨toks, .uni acc ['0', '0']⟩ := by
      simp [tokStep, isHexDigitChar]
    have e5 : tokStep ⟨toks, .uni acc ['0', '0']⟩ (hexDigitChar (c.toNat / 16)) =
        ⟨toks, .uni acc ['0', '0', hexDigitChar (c.toNat / 16)]⟩ := by
      simp [tokStep, isHexDigitChar_hexDigitChar _ hv1]
    have e6 : tokStep ⟨toks, .uni acc ['0', '0', hexDigitChar (c.toNat / 16)]⟩
        (hexDigitChar (c.toNat % 16)) = ⟨toks, .inStr (acc ++ [c])⟩ := by
      have hval : hexListVal ['0', '0', hexDigitChar (c.toNat / 16),
          hexDigitChar (c.toNat % 16)] = c.toNat := by
        simp only [hexListVal, List.foldl_cons, List.foldl_nil,
          hexCharVal_hexDigitChar _ hv1, hexCharVal_hexDigitChar _ hv2]
        have h0 : hexCharVal '0' = 0 := by decide
        rw [h0]
        omega
      simp [tokStep, isHexDigitChar_hexDigitChar _ hv2, hval, Char.ofNat_toNat]
    rw [hform]
    simp only [List.foldl_cons, List.foldl_nil, e1, e2, e3, e4, e5, e6]
  · have hform : jsonEscapeChar c = [c] := by
      simp [jsonEscapeChar, h1, h2, h3, h4, h5, h6, h7, h8]
    rw [hform]
    simp [tokStep, h1, h2]

lemma tok_foldl_escape (cs : List Char) :
    ∀ (toks : List JTok) (acc : List Char),
      List.foldl tokStep ⟨toks, .inStr acc⟩ (jsonEscape cs) = ⟨toks, .inStr (acc ++ cs)⟩ := by
  induction cs with
  | nil => intro toks acc; simp [jsonEscape]
  | cons c rest ih =>
      intro toks acc
      have hsplit : jsonEscape (c :: rest) = jsonEscapeChar c ++ jsonEscape rest := by
        simp [jsonEscape]
      rw [hsplit, List.foldl_append, tok_foldl_escapeChar, ih]
      simp

lemma tok_foldl_indent (n : Nat) (toks : List JTok) :
    List.foldl tokStep ⟨toks, .neutral⟩ (indentChars n) = ⟨toks, .neutral⟩ := by
  induction n with
  | zero => simp [indentChars]
  | succ m ih =>
      rw [show indentChars (m + 1) = ' ' :: indentChars m from by
        simp [indentChars, List.replicate_succ]]
      rw [List.foldl_cons, show tokStep ⟨toks, .neutral⟩ ' ' = ⟨toks, .neutral⟩ from
        by simp [tokStep]]
      exact ih

lemma tok_foldl_stringLit (s : String) (toks : List JTok) :
    List.foldl tokStep ⟨toks, .neutral⟩ (jsonStringLit s) = ⟨toks ++ [.str s], .neutral⟩ := by
  rw [jsonStringLit, List.foldl_cons]
  rw [show tokStep ⟨toks, .neutral⟩ '"' = ⟨toks, .inStr []⟩ from by simp [tokStep]]
  rw [List.foldl_append, tok_foldl_escape]
  rw [show List.foldl tokStep ⟨toks, .inStr ([] ++ s.data)⟩ ['"'] =
      ⟨toks ++ [.str (String.mk s.data)], .neutral⟩ from by simp [tokStep]]

lemma tok_foldl_value (v : Option String) (toks : List JTok) :
    List.foldl tokStep ⟨toks, .neutral⟩ (jsonValueChars v) =
      ⟨toks ++ [valTok v], .neutral⟩ := by
  cases v with
  | some s => exact tok_foldl_stringLit s toks
  | none => simp [jsonValueChars, valTok, tokStep]

lemma tok_foldl_pair (kv : String × Option String) (toks : List JTok) :
    List.foldl tokStep ⟨toks, .neutral⟩ (jsonPairChars kv) =
      ⟨toks ++ pairToks kv, .neutral⟩ := by
  rw [jsonPairChars, List.foldl_append, List.foldl_append, tok_foldl_stringLit]
  rw [show List.foldl tokStep ⟨toks ++ [JTok.str kv.1], .neutral⟩ [':', ' '] =
      ⟨toks ++ [JTok.str kv.1] ++ [JTok.colon], .neutral⟩ from by simp [tokStep]]
  rw [tok_foldl_value]
  simp [pairToks, List.append_assoc]

lemma tok_foldl_pairItems (l : List (String × Option String)) (hne : l ≠ []) :
    ∀ toks : List JTok,
      List.foldl tokStep ⟨toks, .neutral⟩
          (sepJoin [',', '\n'] (l.map (fun kv => indentChars 8 ++ jsonPairChars kv))) =
        ⟨toks ++ sepJoin [JTok.comma] (l.map pairToks), .neutral⟩ := by
  induction l with
  | nil => exact absurd rfl hne
  | cons kv l ih =>
      intro toks
      cases l with
      | nil =>
          simp only [List.map_cons, List.map_nil, sepJoin]
          rw [List.foldl_append, tok_foldl_indent, tok_foldl_pair]
      | cons kv2 l2 =>
          have hsep : sepJoin [',', '\n']
                ((kv :: kv2 :: l2).map (fun x => indentChars 8 ++ jsonPairChars x)) =
              (indentChars 8 ++ jsonPairChars kv) ++ [',', '\n'] ++
                sepJoin [',', '\n']
                  ((kv2 :: l2).map (fun x => indentChars 8 ++ jsonPairChars x)) := by
            simp [sepJoin]
          rw [hsep, List.foldl_append, List.foldl_append, List.foldl_append]
          rw [tok_foldl_indent, tok_foldl_pair]
          rw [show List.foldl tokStep ⟨toks ++ pairToks kv, .neutral⟩ [',', '\n'] =
              ⟨toks ++ pairToks kv ++ [JTok.comma], .neutral⟩ from by simp [tokStep]]
          rw [ih (List.cons_ne_nil kv2 l2)]
          rw [show sepJoin [JTok.comma] ((kv :: kv2 :: l2).map pairToks) =
              pairToks kv ++ [JTok.comma] ++
                sepJoin [JTok.comma] ((kv2 :: l2).map pairToks) from by simp [sepJoin]]
          simp [List.append_assoc]

lemma tok_foldl_obj (r : Record) (toks : List JTok) :
    List.foldl tokStep ⟨toks, .neutral⟩ (jsonObjChars r) =
      ⟨toks ++ objToks r, .neutral⟩ := by
  cases r with
  | nil => simp [jsonObjChars, objToks, sepJoin, tokStep]
  | cons kv l =>
      rw [show jsonObjChars (kv :: l) = '{' :: '\n' ::
          (sepJoin [',', '\n'] ((kv :: l).map (fun x => indentChars 8 ++ jsonPairChars x)) ++
            ('\n' :: (indentChars 4 ++ ['}']))) from by simp [jsonObjChars]]
      rw [List.foldl_cons, show tokStep ⟨toks, .neutral⟩ '{' =
        ⟨toks ++ [JTok.lbrace], .neutral⟩ from by simp [tokStep]]
      rw [List.foldl_cons, show tokStep ⟨toks ++ [JTok.lbrace], .neutral⟩ '\n' =
        ⟨toks ++ [JTok.lbrace], .neutral⟩ from by simp [tokStep]]
      rw [List.foldl_append, tok_foldl_pairItems (kv :: l) (List.cons_ne_nil kv l)]
      rw [List.foldl_cons, show tokStep ⟨toks ++ [JTok.lbrace] ++
          sepJoin [JTok.comma] ((kv :: l).map pairToks), .neutral⟩ '\n' =
        ⟨toks ++ [JTok.lbrace] ++ sepJoin [JTok.comma] ((kv :: l).map pairToks),
          .neutral⟩ from by simp [tokStep]]
      rw [List.foldl_append, tok_foldl_indent]
      rw [show List.foldl tokStep ⟨toks ++ [JTok.lbrace] ++
          sepJoin [JTok.comma] ((kv :: l).map pairToks), .neutral⟩ ['}'] =
        ⟨toks ++ [JTok.lbrace] ++ sepJoin [JTok.comma] ((kv :: l).map pairToks) ++
          [JTok.rbrace], .neutral⟩ from by simp [tokStep]]
      simp [objToks, List.append_assoc]

lemma tok_foldl_objItems (l : List Record) (hne : l ≠ []) :
    ∀ toks : List JTok,
      List.foldl tokStep ⟨toks, .neutral⟩
          (sepJoin [',', '\n'] (l.map (fun r => indentChars 4 ++ jsonObjChars r))) =
        ⟨toks ++ sepJoin [JTok.comma] (l.map objToks), .neutral⟩ := by
  induction l with
  | nil => exact absurd rfl hne
  | cons r l ih =>
      intro toks
      cases l with
      | nil =>
          simp only [List.map_cons, List.map_nil, sepJoin]
          rw [List.foldl_append, tok_foldl_indent, tok_foldl_obj]
      | cons r2 l2 =>
          have hsep : sepJoin [',', '\n']
                ((r :: r2 :: l2).map (fun x => indentChars 4 ++ jsonObjChars x)) =
              (indentChars 4 ++ jsonObjChars r) ++ [',', '\n'] ++
                sepJoin [',', '\n']
                  ((r2 :: l2).map (fun x => indentChars 4 ++ jsonObjChars x)) := by
            simp [sepJoin]
          rw [hsep, List.foldl_append, List.foldl_append, List.foldl_append]
          rw [tok_foldl_indent, tok_foldl_obj]
          rw [show List.foldl tokStep ⟨toks ++ objToks r, .neutral⟩ [',', '\n'] =
              ⟨toks ++ objToks r ++ [JTok.comma], .neutral⟩ from by simp [tokStep]]
          rw [ih (List.cons_ne_nil r2 l2)]
          rw [show sepJoin [JTok.comma] ((r :: r2 :: l2).map objToks) =
              objToks r ++ [JTok.comma] ++
                sepJoin [JTok.comma] ((r2 :: l2).map objToks) from by simp [sepJoin]]
          simp [List.append_assoc]

/-- Tokenising the dumped document yields exactly its token sequence. -/
lemma tokenize_jsonDump (records : List Record) :
    tokenize (jsonDump records).data = some (docToks records) := by
  cases records with
  | nil => decide
  | cons r l =>
      rw [show (jsonDump (r :: l)).data = '[' :: '\n' ::
          (sepJoin [',', '\n'] ((r :: l).map (fun x => indentChars 4 ++ jsonObjChars x)) ++
            ['\n', ']']) from by simp [jsonDump]]
      rw [tokenize]
      rw [List.foldl_cons, show tokStep ⟨[], .neutral⟩ '[' = ⟨[JTok.lbrack], .neutral⟩ from
        by simp [tokStep]]
      rw [List.foldl_cons, show tokStep ⟨[JTok.lbrack], .neutral⟩ '\n' =
        ⟨[JTok.lbrack], .neutral⟩ from by simp [tokStep]]
      rw [List.foldl_append, tok_foldl_objItems (r :: l) (List.cons_ne_nil r l)]
      rw [show List.foldl tokStep ⟨[JTok.lbrack] ++
          sepJoin [JTok.comma] ((r :: l).map objToks), .neutral⟩ ['\n', ']'] =
        ⟨[JTok.lbrack] ++ sepJoin [JTok.comma] ((r :: l).map objToks) ++
          [JTok.rbrack], .neutral⟩ from by simp [tokStep]]
      simp [docToks, List.append_assoc]

/-! ## JSON round trip: the parser recovers the records from the tokens -/

lemma parse_pairs_after (l : List (String × Option String)) :
    ∀ (ps : Record) (objs : List Record) (rest : List JTok),
      parseToks ((l.map (fun kv => JTok.comma :: pairToks kv)).flatten ++
          (JTok.rbrace :: rest)) .afterPair ps objs =
        parseToks rest .afterObj [] (objs ++ [ps ++ l]) := by
  induction l with
  | nil => intro ps objs rest; simp [parseToks]
  | cons kv l ih =>
      intro ps objs rest
      obtain ⟨k, v⟩ := kv
      cases v with
      | some s =>
          rw [show (((k, some s) :: l).map (fun kv => JTok.comma :: pairToks kv)).flatten ++
              (JTok.rbrace :: rest) =
              JTok.comma :: JTok.str k :: JTok.colon :: JTok.str s ::
                ((l.map (fun kv => JTok.comma :: pairToks kv)).flatten ++
                  (JTok.rbrace :: rest)) from by simp [pairToks, valTok]]
          rw [show parseToks (JTok.comma :: JTok.str k :: JTok.colon :: JTok.str s ::
              ((l.map (fun kv => JTok.comma :: pairToks kv)).flatten ++
                (JTok.rbrace :: rest))) .afterPair ps objs =
            parseToks ((l.map (fun kv => JTok.comma :: pairToks kv)).flatten ++
              (JTok.rbrace :: rest)) .afterPair (ps ++ [(k, some s)]) objs from rfl]
          rw [ih]
          simp [List.append_assoc]
      | none =>
          rw [show (((k, none) :: l).map (fun kv => JTok.comma :: pairToks kv)).flatten ++
              (JTok.rbrace :: rest) =
              JTok.comma :: JTok.str k :: JTok.colon :: JTok.nullTok ::
                ((l.map (fun kv => JTok.comma :: pairToks kv)).flatten ++
                  (JTok.rbrace :: rest)) from by simp [pairToks, valTok]]
          rw [show parseToks (JTok.comma :: JTok.str k :: JTok.colon :: JTok.nullTok ::
              ((l.map (fun kv => JTok.comma :: pairToks kv)).flatten ++
                (JTok.rbrace :: rest))) .afterPair ps objs =
            parseToks ((l.map (fun kv => JTok.comma :: pairToks kv)).flatten ++
              (JTok.rbrace :: rest)) .afterPair (ps ++ [(k, none)]) objs from rfl]
          rw [ih]
          simp [List.append_assoc]

lemma parse_obj_start (r : Record) (ps : Record) (objs : List Record) (rest : List JTok) :
    parseToks ((sepJoin [JTok.comma] (r.map pairToks) ++ [JTok.rbrace]) ++ rest)
        .objStart ps objs =
      parseToks rest .afterObj [] (objs ++ [ps ++ r]) := by
  cases r with
  | nil => simp [sepJoin, parseToks]
  | cons kv l =>
      obtain ⟨k, v⟩ := kv
      rw [List.map_cons, sepJoin_cons_flatten]
      rw [show (List.map (fun y => JTok.comma :: y) (List.map pairToks l)).flatten =
          (l.map (fun y => JTok.comma :: pairToks y)).flatten from by
        rw [List.map_map]; rfl]
      cases v with
      | some s =>
          rw [show ((pairToks (k, some s) ++
                (l.map (fun y => JTok.comma :: pairToks y)).flatten) ++ [JTok.rbrace]) ++ rest =
              JTok.str k :: JTok.colon :: JTok.str s ::
                ((l.map (fun y => JTok.comma :: pairToks y)).flatten ++
                  (JTok.rbrace :: rest)) from by simp [pairToks, valTok, List.append_assoc]]
          rw [show parseToks (JTok.str k :: JTok.colon :: JTok.str s ::
              ((l.map (fun y => JTok.comma :: pairToks y)).flatten ++
                (JTok.rbrace :: rest))) .objStart ps objs =
            parseToks ((l.map (fun y => JTok.comma :: pairToks y)).flatten ++
              (JTok.rbrace :: rest)) .afterPair (ps ++ [(k, some s)]) objs from rfl]
          rw [parse_pairs_after]
          simp [List.append_assoc]
      | none =>
          rw [show ((pairToks (k, none) ++
                (l.map (fun y => JTok.comma :: pairToks y)).flatten) ++ [JTok.rbrace]) ++ rest =
              JTok.str k :: JTok.colon :: JTok.nullTok ::
                ((l.map (fun y => JTok.comma :: pairToks y)).flatten ++
                  (JTok.rbrace :: rest)) from by simp [pairToks, valTok, List.append_assoc]]
          rw [show parseToks (JTok.str k :: JTok.colon :: JTok.nullTok ::
              ((l.map (fun y => JTok.comma :: pairToks y)).flatten ++
                (JTok.rbrace :: rest))) .objStart ps objs =
            parseToks ((l.map (fun y => JTok.comma :: pairToks y)).flatten ++
              (JTok.rbrace :: rest)) .afterPair (ps ++ [(k, none)]) objs from rfl]
          rw [parse_pairs_after]
          simp [List.append_assoc]

lemma parse_objs_after (l : List Record) :
    ∀ objs : List Record,
      parseToks ((l.map (fun r => JTok.comma :: objToks r)).flatten ++ [JTok.rbrack])
          .afterObj [] objs = some (objs ++ l) := by
  induction l with
  | nil => intro objs; simp [parseToks]
  | cons r l ih =>
      intro objs
      rw [show ((r :: l).map (fun x => JTok.comma :: objToks x)).flatten ++ [JTok.rbrack] =
          JTok.comma :: JTok.lbrace ::
            ((sepJoin [JTok.comma] (r.map pairToks) ++ [JTok.rbrace]) ++
              ((l.map (fun x => JTok.comma :: objToks x)).flatten ++ [JTok.rbrack])) from
        by simp [objToks, List.append_assoc]]
      rw [show parseToks (JTok.comma :: JTok.lbrace ::
          ((sepJoin [JTok.comma] (r.map pairToks) ++ [JTok.rbrace]) ++
            ((l.map (fun x => JTok.comma :: objToks x)).flatten ++ [JTok.rbrack])))
          .afterObj [] objs =
        parseToks ((sepJoin [JTok.comma] (r.map pairToks) ++ [JTok.rbrace]) ++
          ((l.map (fun x => JTok.comma :: objToks x)).flatten ++ [JTok.rbrack]))
          .objStart [] objs from rfl]
      rw [parse_obj_start]
      rw [ih]
      simp [List.append_assoc]

/-- Parsing the dumped document's tokens yields the records back. -/
lemma jsonParseTokens_docToks (records : List Record) :
    jsonParseTokens (docToks records) = some records := by
  cases records with
  | nil => decide
  | cons r l =>
      rw [show docToks (r :: l) = JTok.lbrack ::
          (sepJoin [JTok.comma] ((r :: l).map objToks) ++ [JTok.rbrack]) from rfl]
      rw [show jsonParseTokens (JTok.lbrack ::
          (sepJoin [JTok.comma] ((r :: l).map objToks) ++ [JTok.rbrack])) =
        parseToks (sepJoin [JTok.comma] ((r :: l).map objToks) ++ [JTok.rbrack])
          .arrStart [] [] from rfl]
      rw [List.map_cons, sepJoin_cons_flatten]
      rw [show (objToks r ++ ((l.map objToks).map (fun y => JTok.comma :: y)).flatten) ++
          [JTok.rbrack] =
          JTok.lbrace :: ((sepJoin [JTok.comma] (r.map pairToks) ++ [JTok.rbrace]) ++
            (((l.map objToks).map (fun y => JTok.comma :: y)).flatten ++ [JTok.rbrack])) from
        by simp [objToks, List.append_assoc]]
      rw [show parseToks (JTok.lbrace ::
          ((sepJoin [JTok.comma] (r.map pairToks) ++ [JTok.rbrace]) ++
            (((l.map objToks).map (fun y => JTok.comma :: y)).flatten ++ [JTok.rbrack])))
          .arrStart [] [] =
        parseToks ((sepJoin [JTok.comma] (r.map pairToks) ++ [JTok.rbrace]) ++
          (((l.map objToks).map (fun y => JTok.comma :: y)).flatten ++ [JTok.rbrack]))
          .objStart [] [] from rfl]
      rw [parse_obj_start]
      rw [show ((l.map objToks).map (fun y => JTok.comma :: y)).flatten =
          (l.map (fun x => JTok.comma :: objToks x)).flatten from by
        rw [List.map_map]; rfl]
      rw [parse_objs_after]
      simp

/-- The JSON round trip is exact: loading the dumped records yields them
unchanged. -/
lemma jsonLoad_jsonDump (records : List Record) :
    jsonLoad (jsonDump records) = some records := by
  rw [jsonLoad, tokenize_jsonDump]
  simpa using jsonParseTokens_docToks records

/-! ## Claim theorems: export round trip -/

/-- C8 (counterexample): the round trip is not exact through CSV — a record
with `null` fields (the spec's own end-to-end record, whose `created_at`,
`mode` and `phone_number` are `null`) comes back with those fields as empty
strings, not `null`, because CSV cannot distinguish the two. -/
theorem C8_roundtrip_counterexample :
    csvRead (csvWriteContent [projectSubscriber sampleSub1]) ≠
      some [projectSubscriber sampleSub1] := by
  decide

/-- C8 (amended): for every list of well-keyed filtered records (exactly the
five whitelisted fields, in order — which the filter guarantees), parsing the
written JSON file yields exactly the original records in order, and parsing
the written CSV file yields the original records in order with each `null`
value replaced by the empty string. -/
theorem C8_export_roundtrip (records : List Record)
    (hkeys : ∀ r ∈ records, r.map Prod.fst = SUBSCRIBER_FIELDS_TO_PRINT) :
    jsonLoad (jsonDump records) = some records ∧
    csvRead (csvWriteContent records) =
      some (records.map (fun r => r.map (fun kv => (kv.1, some (kv.2.getD ""))))) :=
  ⟨jsonLoad_jsonDump records, csvRead_csvWriteContent records hkeys⟩

/-- C8 (witness): the round trip instantiated on the spec's end-to-end
record. -/
theorem C8_export_roundtrip_witness :
    jsonLoad (jsonDump [projectSubscriber sampleSub1]) =
      some [projectSubscriber sampleSub1] ∧
    csvRead (csvWriteContent [projectSubscriber sampleSub1]) =
      some ([projectSubscriber sampleSub1].map
        (fun r => r.map (fun kv => (kv.1, some (kv.2.getD ""))))) :=
  C8_export_roundtrip [projectSubscriber sampleSub1] (by decide)

end StatuspageSubs
